import Mathlib

/-!
Verification development for the nuclear fuel-cycle model.

Definitions are shallow embeddings of the Python sources:
  * `src/uranium_model/config/constants.py`
  * `src/uranium_model/core/fuel_cycle.py`     (real arithmetic, `np.log` as `Real.log`)
  * `src/uranium_model/core/secondary_supply.py` (rational arithmetic)
  * `src/uranium_model/core/primary_supply.py`   (rational arithmetic)
  * `src/uranium_model/core/demand.py`           (rational arithmetic)

Pandas DataFrames are embedded as lists of typed rows; NaN/NaT cells as
`Option`; Python exceptions as `Except.error`.  Floating point is idealized
as exact arithmetic (`ℝ` where logarithms occur, `ℚ` elsewhere so that the
embeddings stay executable).
-/

/-! ### constants.py -/

def NATURAL_U235_ASSAY : ℝ := 0.00711

def DEFAULT_TAILS_ASSAY : ℝ := 0.0025

/-! ### fuel_cycle.py -/

/-- `EnrichmentParams` dataclass: feed/product/tails U-235 assays. -/
structure EnrichmentParams where
  feed_assay : ℝ
  product_assay : ℝ
  tails_assay : ℝ

/-- `value_function(x) = (1 - 2x) * log((1 - x) / x)`. -/
noncomputable def value_function (x : ℝ) : ℝ :=
  (1 - 2 * x) * Real.log ((1 - x) / x)

/-- `feed_and_swu_for_product`: feed mass and separative work for a given
product mass, straight transcription of the Python body. -/
noncomputable def feed_and_swu_for_product (product_tu : ℝ) (params : EnrichmentParams) : ℝ × ℝ :=
  let xf := params.feed_assay
  let xp := params.product_assay
  let xt := params.tails_assay
  let p := product_tu
  let feed_over_product := (xp - xt) / (xf - xt)
  let f_mass := feed_over_product * p
  let w_mass := f_mass - p
  let swu := p * value_function xp + w_mass * value_function xt - f_mass * value_function xf
  (f_mass, swu)

/-- `np.linspace(lo, hi, n)`: `n` evenly spaced points from `lo` to `hi`
inclusive (`[lo]` for `n = 1`, `[]` for `n = 0`). -/
noncomputable def linspace (lo hi : ℝ) (n : ℕ) : List ℝ :=
  if n = 1 then [lo]
  else (List.range n).map (fun (i : ℕ) => lo + (i : ℝ) * (hi - lo) / ((n : ℝ) - 1))

/-- Relative fuel cost of one unit of product at a candidate tails assay
(the loop body of `optimize_tails_assay`). -/
noncomputable def enrichment_cost (u_price swu_price product_assay feed_assay tails : ℝ) : ℝ :=
  let fs := feed_and_swu_for_product 1 (EnrichmentParams.mk feed_assay product_assay tails)
  u_price * fs.1 + swu_price * fs.2

/-- One iteration of the grid-search loop: keep the cheaper candidate, ties
broken in favour of the incumbent (`cost < best_cost` is strict).  The
`none` cost is the initial `best_cost = inf`, which any real cost beats. -/
noncomputable def optStep (u sp pa fa : ℝ) (acc : ℝ × Option ℝ) (tails : ℝ) : ℝ × Option ℝ :=
  let cost := enrichment_cost u sp pa fa tails
  match acc.2 with
  | none => (tails, some cost)
  | some bc => if cost < bc then (tails, some cost) else acc

/-- `optimize_tails_assay`.  Prices are `Option ℝ` (`None` in Python); the
result is `none` exactly when Python would raise an `IndexError` on
`tails_grid[0]` (empty grid, i.e. `grid_points = 0` with both prices
present). -/
noncomputable def optimize_tails_assay (u_price swu_price : Option ℝ)
    (product_assay feed_assay : ℝ) (bounds : ℝ × ℝ) (grid_points : ℕ) : Option ℝ :=
  match u_price, swu_price with
  | some u, some sp =>
    match linspace bounds.1 bounds.2 grid_points with
    | [] => none
    | t :: rest =>
      some ((List.foldl (optStep u sp product_assay feed_assay) (t, none) (t :: rest)).1)
  | _, _ => some DEFAULT_TAILS_ASSAY

/-! ### secondary_supply.py: evolve_inventories

The year-indexed frames (`primary_supply_year`, `secondary_supply_year`,
`feed_demand_year`) are each consumed through
`frame.set_index("year")[valueColumn].get(year, 0.0)`; they are embedded as
lists of `(year, value)` rows where `value` stands for the respective column
(`primary_supply_tu`, `secondary_supply_tu`, `feed_tu`). -/

/-- A row of an inventory series: `year`, `inventory_tu`. -/
structure InvRow where
  year : ℤ
  inventory_tu : ℚ
deriving DecidableEq

/-- A row of a year-keyed value series. -/
structure YearVal where
  year : ℤ
  value : ℚ
deriving DecidableEq

/-- A row of the optional inventory-scenario frame. -/
structure InvScenRow where
  year : ℤ
  inventory_change_tu : ℚ
deriving DecidableEq

/-- `series.get(year, 0.0)` after `set_index("year")`: value of the first row
with the given year, defaulting to zero. -/
def lookupYearVal (l : List YearVal) (y : ℤ) : ℚ :=
  ((l.find? (fun r => r.year == y)).map (fun r => r.value)).getD 0

/-- Policy flow for a year: the scenario's `inventory_change_tu` at that year
when a row exists, else zero (also zero when no scenario frame is given). -/
def policyAt (scen : Option (List InvScenRow)) (y : ℤ) : ℚ :=
  match scen with
  | none => 0
  | some s => ((s.find? (fun r => r.year == y)).map (fun r => r.inventory_change_tu)).getD 0

/-- `initial_inventories.sort_values("year").iloc[-1]`: pandas sorts stably by
year ascending and takes the last row, i.e. the last-occurring row among those
with the maximum year. -/
def invSeed (i0 : InvRow) (rest : List InvRow) : InvRow :=
  rest.foldl (fun best r => if best.year ≤ r.year then r else best) i0

/-- The `for year in range(start_year, end_year + 1)` loop of
`evolve_inventories`, carrying the running stock; `n` is the number of
remaining years. -/
def evolveLoop (primary secondary feed : List YearVal) (scen : Option (List InvScenRow)) :
    ℚ → ℤ → ℕ → List InvRow
  | _, _, 0 => []
  | stock, y, Nat.succ m =>
    let stock2 := stock + lookupYearVal primary y + lookupYearVal secondary y
      - lookupYearVal feed y + policyAt scen y
    InvRow.mk y stock2 :: evolveLoop primary secondary feed scen stock2 (y + 1) m

/-- `frame["year"].max()` over a non-empty frame, seeded with the head's year. -/
def maxYearIn (a : ℤ) (l : List YearVal) : ℤ :=
  l.foldl (fun m r => max m r.year) a

/-- `evolve_inventories`: raises when the initial-inventory series is empty;
also raises (from `int(feed_demand_year["year"].max())`, which is `int(nan)`)
when the feed-demand frame is empty. -/
def evolve_inventories (init : List InvRow) (primary secondary feed : List YearVal)
    (scen : Option (List InvScenRow)) : Except String (List InvRow) :=
  match init with
  | [] => Except.error "initial_inventories must contain at least one row with year and inventory_tu"
  | i0 :: irest =>
    match feed with
    | [] => Except.error "cannot convert float NaN to integer"
    | f0 :: frest =>
      let seed := invSeed i0 irest
      let startY := seed.year + 1
      let endY := maxYearIn f0.year frest
      Except.ok (evolveLoop primary secondary feed scen seed.inventory_tu startY
        ((endY + 1 - startY).toNat))

/-- Closed form of the inventory recurrence: stock after `k` computed years,
starting from `s0` at the year before `y0`. -/
def stockRec (primary secondary feed : List YearVal) (scen : Option (List InvScenRow))
    (s0 : ℚ) (y0 : ℤ) : ℕ → ℚ
  | 0 => s0
  | Nat.succ k =>
    stockRec primary secondary feed scen s0 y0 k
      + lookupYearVal primary (y0 + k) + lookupYearVal secondary (y0 + k)
      - lookupYearVal feed (y0 + k) + policyAt scen (y0 + k)

/-! ### primary_supply.py -/

/-- A row of the mine master table (`mine_id`, `country`). -/
structure MineRow where
  mine_id : ℕ
  country : String
deriving DecidableEq

/-- A row of the mine-production history or a mine-production scenario
(`mine_id`, `year`, `production_tu`). -/
structure MineProdRow where
  mine_id : ℕ
  year : ℤ
  production_tu : ℚ
deriving DecidableEq

/-- A row of the dense mine-level output panel; `country` is the left-merged
mine-master country (`none` when the merge found no master row, or when the
master table is empty so no merge happens at all). -/
structure MineYearRow where
  mine_id : ℕ
  year : ℤ
  production_tu : ℚ
  country : Option String
deriving DecidableEq

/-- `range(a, b + 1)` as a list of integers. -/
def intRange (a b : ℤ) : List ℤ :=
  (List.range (b + 1 - a).toNat).map (fun (i : ℕ) => a + (i : ℤ))

/-- `pandas.Series.unique`: distinct values in order of first occurrence. -/
def uniqueKeep (l : List ℕ) : List ℕ :=
  match l with
  | [] => []
  | x :: xs => x :: uniqueKeep (xs.filter (fun y => y != x))
termination_by l.length
decreasing_by
  simp only [List.length_cons]
  exact Nat.lt_succ_of_le (List.length_filter_le _ xs)

/-- `scenario = mine_scenarios.copy() if mine_scenarios is not None else DataFrame()`,
then range-filtered (an absent frame contributes nothing). -/
def scenFilter (mine_scenarios : Option (List MineProdRow)) (start_year end_year : ℤ) :
    List MineProdRow :=
  match mine_scenarios with
  | none => []
  | some s => s.filter (fun r => decide (start_year ≤ r.year) && decide (r.year ≤ end_year))

/-- `build_primary_supply`: range-filter history and scenario rows, concatenate
them, build the dense template of every known mine times every year in range,
sum production per (mine, year) with zero fill, left-merge the mine country,
and aggregate per year.  Returns `(mine_year, primary_supply)`. -/
def build_primary_supply (mines : List MineRow) (mine_production : List MineProdRow)
    (mine_scenarios : Option (List MineProdRow)) (start_year end_year : ℤ) :
    List MineYearRow × List (ℤ × ℚ) :=
  let base0 := mine_production.filter
    (fun r => decide (start_year ≤ r.year) && decide (r.year ≤ end_year))
  let base := base0 ++ scenFilter mine_scenarios start_year end_year
  let mine_ids := if mines.isEmpty then uniqueKeep (base.map (fun r => r.mine_id))
    else uniqueKeep (mines.map (fun r => r.mine_id))
  let years := intRange start_year end_year
  let mine_year := mine_ids.flatMap (fun m => years.map (fun y =>
    MineYearRow.mk m y
      (((base.filter (fun r => r.mine_id == m && r.year == y)).map
        (fun r => r.production_tu)).sum)
      (if mines.isEmpty then none
        else (mines.find? (fun q => q.mine_id == m)).map (fun q => q.country))))
  -- `mine_year.groupby("year")...sum()`: the sorted distinct years of the
  -- dense template are exactly the year range when any mine exists, and
  -- nothing when the template is empty.
  let primary_supply := if mine_ids.isEmpty then []
    else years.map (fun y =>
      (y, ((mine_year.filter (fun r => r.year == y)).map (fun r => r.production_tu)).sum))
  (mine_year, primary_supply)

/-! ### demand.py: compute_reactor_demand

Reactor dataframes are embedded as typed rows.  Dates are modelled by their
year (the code only ever reads `.dt.year` after `pd.to_datetime`); NaN/NaT
cells are `none`.  The `shutdown_year_override` column is only created by
`_apply_life_overrides` when at least one life-scenario row matches the
scenario name; when none does, `compute_reactor_demand` raises a `KeyError`
on reading `reactors["shutdown_year_override"]`.  Row-wise the field is
carried on every processed row (`none` where the column would hold NaN), and
the column's existence — `lifeMatching ≠ []` — is checked by
`compute_reactor_demand`, which errors exactly where the code raises.  The
newbuild required-column validation is a DataFrame-level concern: in this
typed embedding every required column exists, and the unused `pris_id`,
`name`, `status` and `fuel_type` columns are omitted. -/

/-- A row of the reactor master table. -/
structure ReactorMasterRow where
  reactor_id : ℕ
  country : String
  reactor_type : String
  net_mwe : Option ℚ
  commercial_operation_year : Option ℤ
  permanent_shutdown_year : Option ℤ
deriving DecidableEq

/-- A reactor row after `_apply_life_overrides` (and `_append_newbuilds`). -/
structure ReactorProcRow where
  reactor_id : ℕ
  country : String
  reactor_type : String
  net_mwe : Option ℚ
  commercial_operation_year : Option ℤ
  permanent_shutdown_year : Option ℤ
  shutdown_year_override : Option ℤ
deriving DecidableEq

/-- A row of the reactor-life scenario table; `scen_name` stands for the
`scenario` / `scenario_name` column. -/
structure LifeScenRow where
  scen_name : String
  reactor_id : ℕ
  shutdown_year : Option ℤ
deriving DecidableEq

/-- A row of the newbuild-projects scenario table. -/
structure NewbuildRow where
  scen_name : String
  reactor_id : ℕ
  country : String
  reactor_type : String
  net_mwe : Option ℚ
  start_year : ℤ
deriving DecidableEq

/-- A row of the reactor generation table. -/
structure GenRow where
  reactor_id : ℕ
  year : ℤ
  net_generation_gwh : Option ℚ
deriving DecidableEq

/-- A row of the fuel-parameter table, keyed by `reactor_type`; NaN cells
are `none`. -/
structure FuelParamsRow where
  reactor_type : String
  default_capacity_factor : Option ℚ
  first_core_tu_per_gwe : Option ℚ
  reload_tu_per_gwe_year : Option ℚ
  product_assay : Option ℚ
  tails_assay : Option ℚ
deriving DecidableEq

/-- A row of the per-reactor-year demand output. -/
structure DemandRow where
  reactor_id : ℕ
  year : ℤ
  country : String
  gw_years : Option ℚ
  first_core_tu : ℚ
  reload_tu : ℚ
  total_tu : ℚ
  product_assay : ℚ
  tails_assay : ℚ
deriving DecidableEq

/-- `_lookup_params`: value of the column (`proj`) on the first fuel-parameter
row of the reactor type, with the supplied default when no row matches or the
cell is NaN. -/
def lookupFuelParam (fuel : List FuelParamsRow) (t : String)
    (proj : FuelParamsRow → Option ℚ) (default : ℚ) : ℚ :=
  match fuel.find? (fun row => row.reactor_type == t) with
  | none => default
  | some row => (proj row).getD default

/-- The life-scenario rows matching the scenario name (`scenario_life` in
`_apply_life_overrides`); empty when the table is absent or empty.  The
`shutdown_year_override` column exists in the real frame exactly when this
list is non-empty. -/
def lifeMatching (life : Option (List LifeScenRow)) (name : String) : List LifeScenRow :=
  match life with
  | none => []
  | some l => l.filter (fun s => s.scen_name == name)

/-- `_apply_life_overrides`: rows of the life-scenario table matching the
scenario name are collected into a reactor_id-keyed map (later rows win, as in
`set_index(...).to_dict`) and attached as the shutdown override.  When
`lifeMatching` is empty the code returns the frame without the override
column; the resulting `KeyError` is raised in `compute_reactor_demand`. -/
def apply_life_overrides (master : List ReactorMasterRow)
    (life : Option (List LifeScenRow)) (name : String) : List ReactorProcRow :=
  let matching : List LifeScenRow := lifeMatching life name
  master.map (fun r => ReactorProcRow.mk r.reactor_id r.country r.reactor_type r.net_mwe
    r.commercial_operation_year r.permanent_shutdown_year
    (match matching.reverse.find? (fun s => s.reactor_id == r.reactor_id) with
      | none => none
      | some s => s.shutdown_year))

/-- `_append_newbuilds`: projects matching the scenario name are appended as
reactors whose commercial-operation year is `start_year`, with no shutdown
date and (being freshly concatenated) no shutdown override. -/
def append_newbuilds (base : List ReactorProcRow) (newb : Option (List NewbuildRow))
    (name : String) : List ReactorProcRow :=
  let projects : List NewbuildRow := match newb with
    | none => []
    | some l => l.filter (fun s => s.scen_name == name)
  base ++ projects.map (fun q => ReactorProcRow.mk q.reactor_id q.country q.reactor_type
    q.net_mwe (some q.start_year) none none)

/-- The processed reactor list of `compute_reactor_demand` (overrides applied,
newbuilds appended). -/
def processedReactors (master : List ReactorMasterRow) (life : Option (List LifeScenRow))
    (newb : Option (List NewbuildRow)) (name : String) : List ReactorProcRow :=
  append_newbuilds (apply_life_overrides master life name) newb name

/-- Capacity factor for a reactor-year: actual generation over potential when
a generation row exists (`none` when its `net_generation_gwh` is NaN), the
fuel-parameter default otherwise. -/
def capacityFactor (r : ReactorProcRow) (gen : List GenRow) (fuel : List FuelParamsRow)
    (y : ℤ) : Option ℚ :=
  let cf_default := lookupFuelParam fuel r.reactor_type
    (fun q => q.default_capacity_factor) 0.85
  match gen.find? (fun g => g.reactor_id == r.reactor_id && g.year == y) with
  | none => some cf_default
  | some g =>
    match r.net_mwe with
    | none => some cf_default
    | some mwe =>
      if mwe = 0 then some cf_default
      else match g.net_generation_gwh with
        | none => none
        | some gwh => some (gwh / (mwe * 8760 / 1000))

/-- One output row of the per-reactor year loop (`st` is the reactor's start
year, `y` the current year). -/
def demandRowFor (r : ReactorProcRow) (st : ℤ) (gen : List GenRow)
    (fuel : List FuelParamsRow) (y : ℤ) : DemandRow :=
  let net_gwe : Option ℚ := r.net_mwe.map (fun m => m / 1000)
  let cf := capacityFactor r gen fuel y
  let gw_years : Option ℚ := match net_gwe, cf with
    | some g, some c => some (g * c)
    | _, _ => none
  let first_core_factor := lookupFuelParam fuel r.reactor_type
    (fun q => q.first_core_tu_per_gwe) 0
  let reload_factor := lookupFuelParam fuel r.reactor_type
    (fun q => q.reload_tu_per_gwe_year) 0
  let pa := lookupFuelParam fuel r.reactor_type (fun q => q.product_assay) 0.045
  let ta := lookupFuelParam fuel r.reactor_type (fun q => q.tails_assay) 0.0025
  let first_core_tu : ℚ := match net_gwe with
    | some g => if y = st then first_core_factor * g else 0
    | none => 0
  let reload_tu : ℚ := match gw_years with
    | some gy => reload_factor * gy
    | none => 0
  DemandRow.mk r.reactor_id y r.country gw_years first_core_tu reload_tu
    (first_core_tu + reload_tu) pa ta

/-- The years a reactor contributes: `range(max(start, start_year), end_year + 1)`
truncated by the `break` at `year > shutdown_year`, where the shutdown year is
the override, else the shutdown date's year, else `end_year`. -/
def reactorYears (r : ReactorProcRow) (st : ℤ) (sy ey : ℤ) : List ℤ :=
  let shutdown := match r.shutdown_year_override with
    | some v => v
    | none => match r.permanent_shutdown_year with
      | some v => v
      | none => ey
  intRange (max st sy) (min shutdown ey)

/-- The rows one processed reactor contributes (the body of the outer loop of
`compute_reactor_demand`); a reactor without a commercial-operation year is
handled at the `compute_reactor_demand` level (the code raises there). -/
def reactorBatch (gen : List GenRow) (fuel : List FuelParamsRow) (sy ey : ℤ)
    (r : ReactorProcRow) : List DemandRow :=
  match r.commercial_operation_year with
  | none => []
  | some st => (reactorYears r st sy ey).map (demandRowFor r st gen fuel)

/-- `compute_reactor_demand`: raises a `KeyError` on
`reactors["shutdown_year_override"]` when no life-scenario row matched the
scenario (the column was never created); then errors when some processed
reactor has no commercial-operation year (`int(nan)` on `start_year`);
otherwise one row per reactor-year. -/
def compute_reactor_demand (master : List ReactorMasterRow) (gen : List GenRow)
    (fuel : List FuelParamsRow) (life : Option (List LifeScenRow))
    (newb : Option (List NewbuildRow)) (sy ey : ℤ) (name : String) :
    Except String (List DemandRow) :=
  let reactors := processedReactors master life newb name
  if lifeMatching life name = [] then Except.error "KeyError: shutdown_year_override"
  else if reactors.all (fun r => r.commercial_operation_year.isSome) then
    Except.ok (reactors.flatMap (reactorBatch gen fuel sy ey))
  else Except.error "cannot convert float NaN to integer"

/-- The predicate "row belongs to reactor `rid` and carries a strictly
positive first-core charge". -/
def fcPos (rid : ℕ) : DemandRow → Bool :=
  fun d => decide (d.reactor_id = rid) && decide (0 < d.first_core_tu)

/-! ### Theorems about fuel_cycle.py -/

/-- C7: `value_function` is symmetric under `x ↦ 1 - x` on `(0, 1)`. -/
theorem value_function_symm (x : ℝ) (h0 : 0 < x) (h1 : x < 1) :
    value_function x = value_function (1 - x) := by
  have hx : x ≠ 0 := ne_of_gt h0
  have hy : (1 : ℝ) - x ≠ 0 := by intro h; nlinarith
  simp only [value_function]
  rw [show (1 : ℝ) - (1 - x) = x by ring]
  rw [Real.log_div hy hx, Real.log_div hx hy]
  ring

theorem value_function_symm_witness :
    (0 : ℝ) < 1 / 4 ∧ (1 / 4 : ℝ) < 1 ∧
      value_function (1 / 4) = value_function (1 - 1 / 4) :=
  ⟨by norm_num, by norm_num, value_function_symm (1 / 4) (by norm_num) (by norm_num)⟩

/-- C2: U-235 mass balance: the feed mass `F` returned by
`feed_and_swu_for_product` satisfies
`F * feedAssay = productTu * productAssay + (F - productTu) * tailsAssay`
whenever `feed_assay ≠ tails_assay`. -/
theorem feed_mass_balance (product_tu : ℝ) (p : EnrichmentParams)
    (h : p.feed_assay ≠ p.tails_assay) :
    (feed_and_swu_for_product product_tu p).1 * p.feed_assay =
      product_tu * p.product_assay +
        ((feed_and_swu_for_product product_tu p).1 - product_tu) * p.tails_assay := by
  have hd : p.feed_assay - p.tails_assay ≠ 0 := sub_ne_zero.mpr h
  simp only [feed_and_swu_for_product]
  field_simp
  ring

theorem feed_mass_balance_witness :
    (EnrichmentParams.mk 0.00711 0.045 0.0025).feed_assay ≠
        (EnrichmentParams.mk 0.00711 0.045 0.0025).tails_assay ∧
      (feed_and_swu_for_product 2 (EnrichmentParams.mk 0.00711 0.045 0.0025)).1 *
          (EnrichmentParams.mk 0.00711 0.045 0.0025).feed_assay =
        2 * (EnrichmentParams.mk 0.00711 0.045 0.0025).product_assay +
          ((feed_and_swu_for_product 2 (EnrichmentParams.mk 0.00711 0.045 0.0025)).1 - 2) *
            (EnrichmentParams.mk 0.00711 0.045 0.0025).tails_assay :=
  ⟨by norm_num, feed_mass_balance 2 (EnrichmentParams.mk 0.00711 0.045 0.0025) (by norm_num)⟩

/-- C4 counterexample: with the ordering `tailsAssay < productAssay < feedAssay`
claimed by the spec (tails 0.0025 < product 0.02 < feed 0.05) and product mass 1,
the computed feed mass is (0.02 - 0.0025) / (0.05 - 0.0025) = 7/19 < 1, so the
feed does NOT exceed the product. -/
theorem feed_exceeds_product_counterex :
    ((0.0025 : ℝ) < 0.02 ∧ (0.02 : ℝ) < 0.05 ∧ (0 : ℝ) < 1) ∧
      ¬ (1 < (feed_and_swu_for_product 1 (EnrichmentParams.mk 0.05 0.02 0.0025)).1) := by
  constructor
  · norm_num
  · simp only [feed_and_swu_for_product]
    norm_num

/-- C4 (amended): under the ordering `tailsAssay < feedAssay < productAssay`
(the one the enrichment formula actually needs, §3 of the spec), the feed mass
strictly exceeds the product mass for positive product. -/
theorem feed_exceeds_product (product_tu : ℝ) (p : EnrichmentParams)
    (hP : 0 < product_tu) (h1 : p.tails_assay < p.feed_assay)
    (h2 : p.feed_assay < p.product_assay) :
    product_tu < (feed_and_swu_for_product product_tu p).1 := by
  simp only [feed_and_swu_for_product]
  have hd : 0 < p.feed_assay - p.tails_assay := by linarith
  have hr : 1 < (p.product_assay - p.tails_assay) / (p.feed_assay - p.tails_assay) :=
    (one_lt_div hd).mpr (by linarith)
  nlinarith

theorem feed_exceeds_product_witness :
    (0 : ℝ) < 1 ∧ (EnrichmentParams.mk 0.00711 0.045 0.0025).tails_assay <
        (EnrichmentParams.mk 0.00711 0.045 0.0025).feed_assay ∧
      (EnrichmentParams.mk 0.00711 0.045 0.0025).feed_assay <
        (EnrichmentParams.mk 0.00711 0.045 0.0025).product_assay ∧
      1 < (feed_and_swu_for_product 1 (EnrichmentParams.mk 0.00711 0.045 0.0025)).1 :=
  ⟨by norm_num, by norm_num, by norm_num,
    feed_exceeds_product 1 (EnrichmentParams.mk 0.00711 0.045 0.0025)
      (by norm_num) (by norm_num) (by norm_num)⟩

/-- C10: both components of `feed_and_swu_for_product` are homogeneous of
degree one in the product mass, and the zero product demands zero feed and
zero separative work. -/
theorem feed_swu_homogeneous (a product_tu : ℝ) (p : EnrichmentParams)
    (h : p.feed_assay ≠ p.tails_assay) :
    (feed_and_swu_for_product (a * product_tu) p).1 =
        a * (feed_and_swu_for_product product_tu p).1 ∧
      (feed_and_swu_for_product (a * product_tu) p).2 =
        a * (feed_and_swu_for_product product_tu p).2 ∧
      feed_and_swu_for_product 0 p = (0, 0) := by
  refine ⟨?_, ?_, ?_⟩
  · simp only [feed_and_swu_for_product]
    ring
  · simp only [feed_and_swu_for_product]
    ring
  · simp only [feed_and_swu_for_product, Prod.mk.injEq]
    constructor <;> ring

theorem feed_swu_homogeneous_witness :
    (EnrichmentParams.mk 0.00711 0.045 0.0025).feed_assay ≠
        (EnrichmentParams.mk 0.00711 0.045 0.0025).tails_assay ∧
      (feed_and_swu_for_product (2 * 3) (EnrichmentParams.mk 0.00711 0.045 0.0025)).1 =
        2 * (feed_and_swu_for_product 3 (EnrichmentParams.mk 0.00711 0.045 0.0025)).1 :=
  ⟨by norm_num,
    (feed_swu_homogeneous 2 3 (EnrichmentParams.mk 0.00711 0.045 0.0025) (by norm_num)).1⟩

/-- C5: `optimize_tails_assay` returns exactly the global default tails assay
(`DEFAULT_TAILS_ASSAY = 0.0025`) whenever either price is absent, regardless of
the remaining arguments. -/
theorem optimize_tails_default_on_missing_price (u_price swu_price : Option ℝ)
    (pa fa : ℝ) (b : ℝ × ℝ) (gp : ℕ) (h : u_price = none ∨ swu_price = none) :
    optimize_tails_assay u_price swu_price pa fa b gp = some DEFAULT_TAILS_ASSAY ∧
      DEFAULT_TAILS_ASSAY = (0.0025 : ℝ) := by
  refine ⟨?_, rfl⟩
  unfold optimize_tails_assay
  rcases h with rfl | rfl
  · cases swu_price <;> rfl
  · cases u_price <;> rfl

theorem optimize_tails_default_on_missing_price_witness :
    ((none : Option ℝ) = none ∨ (some (5 : ℝ) : Option ℝ) = none) ∧
      optimize_tails_assay none (some 5) 0.045 0.00711 (0.1, 0.2) 40 =
          some DEFAULT_TAILS_ASSAY ∧
        DEFAULT_TAILS_ASSAY = (0.0025 : ℝ) :=
  ⟨Or.inl rfl,
    optimize_tails_default_on_missing_price none (some 5) 0.045 0.00711 (0.1, 0.2) 40
      (Or.inl rfl)⟩

/-- C3 counterexample: with an absent uranium price and bounds `(0.1, 0.2)`,
`optimize_tails_assay` returns the global default `0.0025`, which lies outside
the supplied bounds. -/
theorem optimize_tails_in_bounds_counterex :
    optimize_tails_assay none (some 1) 0.045 0.00711 (0.1, 0.2) 40 =
        some DEFAULT_TAILS_ASSAY ∧
      ¬ ((0.1 : ℝ) ≤ DEFAULT_TAILS_ASSAY ∧ DEFAULT_TAILS_ASSAY ≤ (0.2 : ℝ)) := by
  constructor
  · rfl
  · unfold DEFAULT_TAILS_ASSAY
    norm_num

theorem optStep_fst (u sp pa fa : ℝ) (acc : ℝ × Option ℝ) (t : ℝ) :
    (optStep u sp pa fa acc t).1 = t ∨ (optStep u sp pa fa acc t).1 = acc.1 := by
  unfold optStep
  cases h : acc.2 with
  | none => left; rfl
  | some bc =>
    by_cases hc : enrichment_cost u sp pa fa t < bc
    · left; simp [hc]
    · right; simp [hc]

theorem foldl_optStep_mem (u sp pa fa : ℝ) (l : List ℝ) :
    ∀ acc : ℝ × Option ℝ,
      (List.foldl (optStep u sp pa fa) acc l).1 = acc.1 ∨
        (List.foldl (optStep u sp pa fa) acc l).1 ∈ l := by
  induction l with
  | nil => intro acc; left; rfl
  | cons x xs ih =>
    intro acc
    simp only [List.foldl_cons]
    rcases ih (optStep u sp pa fa acc x) with h | h
    · rcases optStep_fst u sp pa fa acc x with h2 | h2
      · right; rw [h, h2]; exact List.mem_cons_self x xs
      · left; rw [h, h2]
    · right; exact List.mem_cons_of_mem _ h

theorem linspace_mem_bounds {lo hi x : ℝ} {n : ℕ} (hx : x ∈ linspace lo hi n) :
    min lo hi ≤ x ∧ x ≤ max lo hi := by
  unfold linspace at hx
  split_ifs at hx with h1
  · simp only [List.mem_singleton] at hx
    subst hx
    exact ⟨min_le_left _ _, le_max_left _ _⟩
  · obtain ⟨i, hi_mem, rfl⟩ := List.mem_map.mp hx
    rw [List.mem_range] at hi_mem
    rcases Nat.eq_zero_or_pos n with rfl | hn
    · omega
    have hn2 : 2 ≤ n := by omega
    have hc : (0 : ℝ) < (n : ℝ) - 1 := by
      have h2r : (2 : ℝ) ≤ (n : ℝ) := by exact_mod_cast hn2
      linarith
    have hi1 : (i : ℝ) ≤ (n : ℝ) - 1 := by
      have hir : (i : ℝ) + 1 ≤ (n : ℝ) := by exact_mod_cast hi_mem
      linarith
    have hi0 : (0 : ℝ) ≤ (i : ℝ) := Nat.cast_nonneg i
    have hx' : lo + (i : ℝ) * (hi - lo) / ((n : ℝ) - 1) =
        lo + ((i : ℝ) / ((n : ℝ) - 1)) * (hi - lo) := by ring
    rw [hx']
    set t : ℝ := (i : ℝ) / ((n : ℝ) - 1) with ht
    have ht0 : 0 ≤ t := div_nonneg hi0 hc.le
    have ht1 : t ≤ 1 := (div_le_one hc).mpr hi1
    rcases le_total lo hi with hlh | hlh
    · rw [min_eq_left hlh, max_eq_right hlh]
      constructor <;> nlinarith
    · rw [min_eq_right hlh, max_eq_left hlh]
      constructor <;> nlinarith

/-- C3 (amended): whenever both prices are present and the grid has at least
one point, the tails assay returned by `optimize_tails_assay` lies between the
two supplied bounds, endpoints included. -/
theorem optimize_tails_in_bounds (u sp pa fa : ℝ) (b : ℝ × ℝ) (gp : ℕ)
    (hgp : 1 ≤ gp) :
    ∃ r, optimize_tails_assay (some u) (some sp) pa fa b gp = some r ∧
      min b.1 b.2 ≤ r ∧ r ≤ max b.1 b.2 := by
  have hne : linspace b.1 b.2 gp ≠ [] := by
    unfold linspace
    split_ifs with h1
    · simp
    · intro hcon
      have hlen := congrArg List.length hcon
      simp only [List.length_map, List.length_range, List.length_nil] at hlen
      omega
  unfold optimize_tails_assay
  cases hg : linspace b.1 b.2 gp with
  | nil => exact absurd hg hne
  | cons t rest =>
    refine ⟨_, rfl, ?_⟩
    have hmem : (List.foldl (optStep u sp pa fa) (t, none) (t :: rest)).1 ∈
        linspace b.1 b.2 gp := by
      rw [hg]
      rcases foldl_optStep_mem u sp pa fa (t :: rest) (t, none) with h | h
      · rw [h]; exact List.mem_cons_self t rest
      · exact h
    exact linspace_mem_bounds hmem

theorem optimize_tails_in_bounds_witness :
    (1 : ℕ) ≤ 40 ∧
      ∃ r, optimize_tails_assay (some 60) (some 100) 0.045 0.00711 (0.001, 0.003) 40 =
          some r ∧ min (0.001 : ℝ) 0.003 ≤ r ∧ r ≤ max (0.001 : ℝ) 0.003 :=
  ⟨by norm_num, optimize_tails_in_bounds 60 100 0.045 0.00711 (0.001, 0.003) 40 (by norm_num)⟩

/-! ### Theorems about secondary_supply.py (inventory evolution) -/

theorem evolveLoop_length (p s f : List YearVal) (sc : Option (List InvScenRow)) :
    ∀ (n : ℕ) (stock : ℚ) (y : ℤ), (evolveLoop p s f sc stock y n).length = n := by
  intro n
  induction n with
  | zero => intro stock y; rfl
  | succ m ih => intro stock y; simp only [evolveLoop, List.length_cons, ih]

theorem stockRec_shift (p s f : List YearVal) (sc : Option (List InvScenRow))
    (s0 : ℚ) (y0 : ℤ) :
    ∀ k : ℕ,
      stockRec p s f sc
          (s0 + lookupYearVal p y0 + lookupYearVal s y0 - lookupYearVal f y0 + policyAt sc y0)
          (y0 + 1) k =
        stockRec p s f sc s0 y0 (k + 1) := by
  have hstep : ∀ (s1 : ℚ) (y1 : ℤ) (m : ℕ), stockRec p s f sc s1 y1 (m + 1) =
      stockRec p s f sc s1 y1 m + lookupYearVal p (y1 + m) + lookupYearVal s (y1 + m)
        - lookupYearVal f (y1 + m) + policyAt sc (y1 + m) := fun _ _ _ => rfl
  intro k
  induction k with
  | zero => simp [stockRec]
  | succ m ih =>
    rw [hstep, ih]
    have hy : (y0 + 1) + (m : ℤ) = y0 + ((m + 1 : ℕ) : ℤ) := by push_cast; ring
    rw [hy, hstep s0 y0 (m + 1)]

theorem evolveLoop_get? (p s f : List YearVal) (sc : Option (List InvScenRow)) :
    ∀ (n : ℕ) (stock : ℚ) (y : ℤ) (k : ℕ), k < n →
      (evolveLoop p s f sc stock y n).get? k =
        some (InvRow.mk (y + k) (stockRec p s f sc stock y (k + 1))) := by
  intro n
  induction n with
  | zero => intro stock y k h; exact absurd h (Nat.not_lt_zero k)
  | succ m ih =>
    intro stock y k h
    cases k with
    | zero => simp [evolveLoop, stockRec]
    | succ j =>
      have hj : j < m := Nat.lt_of_succ_lt_succ h
      simp only [evolveLoop, List.get?_cons_succ]
      rw [ih _ _ j hj, stockRec_shift]
      have hy : (y + 1) + (j : ℤ) = y + ((j + 1 : ℕ) : ℤ) := by push_cast; ring
      rw [hy]

/-- C1: for a non-empty initial series and a non-empty feed-demand panel, the
output of `evolve_inventories` has one row per year from (max initial year)+1
through the max feed-demand year in ascending order, each row's stock obeying
`stock(t) = stock(t-1) + primary(t) + secondary(t) - feed(t) + policy(t)` with
the seed stock (inventory of the most recent initial row) before the first
computed year and absent years contributing zero; in particular, from stock 100
at 2020 with flows (10, 5, 12, 0) for 2021 and (8, 4, 15, 0) for 2022, the
output is inventory(2021) = 103 and inventory(2022) = 100. -/
theorem inventory_recurrence :
    (∀ (i0 : InvRow) (irest : List InvRow) (primary secondary : List YearVal)
        (f0 : YearVal) (frest : List YearVal) (scen : Option (List InvScenRow)),
      ∃ out, evolve_inventories (i0 :: irest) primary secondary (f0 :: frest) scen =
          Except.ok out ∧
        out.length = (maxYearIn f0.year frest - (invSeed i0 irest).year).toNat ∧
        (∀ (k : ℕ) (h : k < out.length),
          (out.get ⟨k, h⟩).year = (invSeed i0 irest).year + 1 + k ∧
          (out.get ⟨k, h⟩).inventory_tu =
            (if 0 < k then
                (out.get ⟨k - 1, Nat.lt_of_le_of_lt (Nat.sub_le k 1) h⟩).inventory_tu
              else (invSeed i0 irest).inventory_tu)
            + lookupYearVal primary ((invSeed i0 irest).year + 1 + k)
            + lookupYearVal secondary ((invSeed i0 irest).year + 1 + k)
            - lookupYearVal (f0 :: frest) ((invSeed i0 irest).year + 1 + k)
            + policyAt scen ((invSeed i0 irest).year + 1 + k))) ∧
    evolve_inventories [InvRow.mk 2020 100]
        [YearVal.mk 2021 10, YearVal.mk 2022 8]
        [YearVal.mk 2021 5, YearVal.mk 2022 4]
        [YearVal.mk 2021 12, YearVal.mk 2022 15] none =
      Except.ok [InvRow.mk 2021 103, InvRow.mk 2022 100] := by
  constructor
  · intro i0 irest primary secondary f0 frest scen
    refine ⟨_, rfl, ?_, ?_⟩
    · rw [evolveLoop_length]
      congr 1
      ring
    · intro k h
      have hlen : (evolveLoop primary secondary (f0 :: frest) scen
          (invSeed i0 irest).inventory_tu ((invSeed i0 irest).year + 1)
          ((maxYearIn f0.year frest + 1 - ((invSeed i0 irest).year + 1)).toNat)).length =
          (maxYearIn f0.year frest + 1 - ((invSeed i0 irest).year + 1)).toNat :=
        evolveLoop_length _ _ _ _ _ _ _
      have hk : k < (maxYearIn f0.year frest + 1 - ((invSeed i0 irest).year + 1)).toNat := by
        rw [hlen] at h; exact h
      have hget := evolveLoop_get? primary secondary (f0 :: frest) scen
        ((maxYearIn f0.year frest + 1 - ((invSeed i0 irest).year + 1)).toNat)
        (invSeed i0 irest).inventory_tu ((invSeed i0 irest).year + 1) k hk
      rw [List.get?_eq_get h] at hget
      have hrow := Option.some.inj hget
      constructor
      · rw [hrow]
      · cases k with
        | zero =>
          rw [hrow]
          simp only [Nat.lt_irrefl, if_false]
          have h0 : stockRec primary secondary (f0 :: frest) scen
              (invSeed i0 irest).inventory_tu ((invSeed i0 irest).year + 1) (0 + 1) =
              (invSeed i0 irest).inventory_tu
                + lookupYearVal primary ((invSeed i0 irest).year + 1 + (0 : ℕ))
                + lookupYearVal secondary ((invSeed i0 irest).year + 1 + (0 : ℕ))
                - lookupYearVal (f0 :: frest) ((invSeed i0 irest).year + 1 + (0 : ℕ))
                + policyAt scen ((invSeed i0 irest).year + 1 + (0 : ℕ)) := rfl
          rw [h0]
        | succ j =>
          have hj : j < (maxYearIn f0.year frest + 1 - ((invSeed i0 irest).year + 1)).toNat := by
            omega
          have hjlt : j < (evolveLoop primary secondary (f0 :: frest) scen
              (invSeed i0 irest).inventory_tu ((invSeed i0 irest).year + 1)
              ((maxYearIn f0.year frest + 1 - ((invSeed i0 irest).year + 1)).toNat)).length := by
            rw [hlen]; exact hj
          have hgetj := evolveLoop_get? primary secondary (f0 :: frest) scen
            ((maxYearIn f0.year frest + 1 - ((invSeed i0 irest).year + 1)).toNat)
            (invSeed i0 irest).inventory_tu ((invSeed i0 irest).year + 1) j hj
          rw [List.get?_eq_get hjlt] at hgetj
          have hrowj := Option.some.inj hgetj
          have hidx : (⟨j + 1 - 1, Nat.lt_of_le_of_lt (Nat.sub_le (j + 1) 1) h⟩ :
              Fin (evolveLoop primary secondary (f0 :: frest) scen
                (invSeed i0 irest).inventory_tu ((invSeed i0 irest).year + 1)
                ((maxYearIn f0.year frest + 1 - ((invSeed i0 irest).year + 1)).toNat)).length) =
              ⟨j, hjlt⟩ := by
            congr 1
          rw [hrow, if_pos (Nat.succ_pos j), hidx, hrowj]
          have hs : stockRec primary secondary (f0 :: frest) scen
              (invSeed i0 irest).inventory_tu ((invSeed i0 irest).year + 1) (j + 1 + 1) =
              stockRec primary secondary (f0 :: frest) scen
                (invSeed i0 irest).inventory_tu ((invSeed i0 irest).year + 1) (j + 1)
                + lookupYearVal primary ((invSeed i0 irest).year + 1 + (j + 1 : ℕ))
                + lookupYearVal secondary ((invSeed i0 irest).year + 1 + (j + 1 : ℕ))
                - lookupYearVal (f0 :: frest) ((invSeed i0 irest).year + 1 + (j + 1 : ℕ))
                + policyAt scen ((invSeed i0 irest).year + 1 + (j + 1 : ℕ)) := rfl
          rw [hs]
  · norm_num [evolve_inventories, invSeed, maxYearIn, evolveLoop, lookupYearVal, policyAt,
      List.find?_cons_of_pos, List.find?_cons_of_neg]

theorem inventory_recurrence_witness :
    evolve_inventories [InvRow.mk 2020 100]
        [YearVal.mk 2021 10, YearVal.mk 2022 8]
        [YearVal.mk 2021 5, YearVal.mk 2022 4]
        [YearVal.mk 2021 12, YearVal.mk 2022 15] none =
      Except.ok [InvRow.mk 2021 103, InvRow.mk 2022 100] :=
  inventory_recurrence.2

theorem invSeed_mem : ∀ (rest : List InvRow) (i0 : InvRow), invSeed i0 rest ∈ i0 :: rest := by
  intro rest
  induction rest with
  | nil => intro i0; exact List.mem_singleton.mpr rfl
  | cons x xs ih =>
    intro i0
    have h : invSeed i0 (x :: xs) = invSeed (if i0.year ≤ x.year then x else i0) xs := rfl
    rw [h]
    by_cases hc : i0.year ≤ x.year
    · rw [if_pos hc]
      exact List.mem_cons_of_mem i0 (ih x)
    · rw [if_neg hc]
      rcases List.mem_cons.mp (ih i0) with h2 | h2
      · rw [h2]; exact List.mem_cons_self _ _
      · exact List.mem_cons_of_mem i0 (List.mem_cons_of_mem x h2)

theorem invSeed_le : ∀ (rest : List InvRow) (i0 : InvRow) (r : InvRow),
    r ∈ i0 :: rest → r.year ≤ (invSeed i0 rest).year := by
  intro rest
  induction rest with
  | nil =>
    intro i0 r hr
    rw [List.mem_singleton] at hr
    subst hr
    exact le_refl _
  | cons x xs ih =>
    intro i0 r hr
    have h : invSeed i0 (x :: xs) = invSeed (if i0.year ≤ x.year then x else i0) xs := rfl
    rw [h]
    by_cases hc : i0.year ≤ x.year
    · rw [if_pos hc]
      rcases List.mem_cons.mp hr with rfl | hr2
      · exact le_trans hc (ih x x (List.mem_cons_self x xs))
      · exact ih x r hr2
    · rw [if_neg hc]
      rcases List.mem_cons.mp hr with rfl | hr2
      · exact ih r r (List.mem_cons_self r xs)
      · rcases List.mem_cons.mp hr2 with rfl | hr3
        · exact le_trans (le_of_lt (not_le.mp hc)) (ih i0 i0 (List.mem_cons_self i0 xs))
        · exact ih i0 r (List.mem_cons_of_mem i0 hr3)

/-- C9 counterexample: with a non-empty initial series but an empty feed-demand
panel, `evolve_inventories` still raises (the `int(nan)` conversion on the max
of an empty year column), so "fails iff the initial series is empty" is too
strong. -/
theorem inventory_seed_mandatory_counterex :
    ([InvRow.mk 2020 100] ≠ ([] : List InvRow)) ∧
      evolve_inventories [InvRow.mk 2020 100] [] [] [] none =
        Except.error "cannot convert float NaN to integer" :=
  ⟨by simp, rfl⟩

/-- C9 (amended): `evolve_inventories` fails exactly when the initial series is
empty or the feed-demand panel is empty; the seed-validation error is raised
exactly when the initial series is empty; and for non-empty inputs the
evolution runs from the inventory of a maximal-year row of the initial
series. -/
theorem inventory_seed_mandatory (init : List InvRow) (primary secondary feed : List YearVal)
    (scen : Option (List InvScenRow)) :
    ((∃ e, evolve_inventories init primary secondary feed scen = Except.error e) ↔
      (init = [] ∨ feed = [])) ∧
    (evolve_inventories init primary secondary feed scen =
        Except.error "initial_inventories must contain at least one row with year and inventory_tu" ↔
      init = []) ∧
    (∀ (i0 : InvRow) (irest : List InvRow) (f0 : YearVal) (frest : List YearVal),
      init = i0 :: irest → feed = f0 :: frest →
      invSeed i0 irest ∈ init ∧
      (∀ r ∈ init, r.year ≤ (invSeed i0 irest).year) ∧
      evolve_inventories init primary secondary feed scen =
        Except.ok (evolveLoop primary secondary feed scen (invSeed i0 irest).inventory_tu
          ((invSeed i0 irest).year + 1)
          ((maxYearIn f0.year frest + 1 - ((invSeed i0 irest).year + 1)).toNat))) := by
  refine ⟨?_, ?_, ?_⟩
  · cases init with
    | nil => exact ⟨fun _ => Or.inl rfl, fun _ => ⟨_, rfl⟩⟩
    | cons i0 ir =>
      cases feed with
      | nil => exact ⟨fun _ => Or.inr rfl, fun _ => ⟨_, rfl⟩⟩
      | cons f0 fr =>
        constructor
        · rintro ⟨e, he⟩
          exact absurd he (by simp [evolve_inventories])
        · rintro (h | h) <;> exact absurd h (by simp)
  · cases init with
    | nil => exact ⟨fun _ => rfl, fun _ => rfl⟩
    | cons i0 ir =>
      constructor
      · intro h
        cases feed with
        | nil => exact absurd h (by simp [evolve_inventories])
        | cons f0 fr => exact absurd h (by simp [evolve_inventories])
      · intro h
        exact absurd h (by simp)
  · rintro i0 irest f0 frest rfl rfl
    exact ⟨invSeed_mem irest i0, fun r hr => invSeed_le irest i0 r hr, rfl⟩

theorem inventory_seed_mandatory_witness :
    evolve_inventories [] [] [] [] none =
        Except.error "initial_inventories must contain at least one row with year and inventory_tu" ∧
      invSeed (InvRow.mk 2020 100) [] ∈ [InvRow.mk 2020 100] :=
  ⟨(inventory_seed_mandatory [] [] [] [] none).2.1.mpr rfl,
    ((inventory_seed_mandatory [InvRow.mk 2020 100] [] [] [YearVal.mk 2021 3] none).2.2
      (InvRow.mk 2020 100) [] (YearVal.mk 2021 3) [] rfl rfl).1⟩

/-! ### Theorems about primary_supply.py -/

theorem uniqueKeep_mem : ∀ (l : List ℕ) (y : ℕ), y ∈ uniqueKeep l ↔ y ∈ l := by
  intro l
  induction l using uniqueKeep.induct with
  | case1 => intro y; rw [uniqueKeep]
  | case2 x xs ih =>
    intro y
    rw [show uniqueKeep (x :: xs) = x :: uniqueKeep (xs.filter (fun y => y != x)) from by
      rw [uniqueKeep]]
    constructor
    · intro h
      rcases List.mem_cons.mp h with rfl | h2
      · exact List.mem_cons_self _ _
      · have := (ih y).mp h2
        exact List.mem_cons_of_mem x (List.mem_of_mem_filter this)
    · intro h
      rcases List.mem_cons.mp h with rfl | h2
      · exact List.mem_cons_self _ _
      · by_cases hy : y = x
        · subst hy; exact List.mem_cons_self _ _
        · refine List.mem_cons_of_mem x ((ih y).mpr ?_)
          rw [List.mem_filter]
          exact ⟨h2, by simp [hy]⟩

theorem uniqueKeep_nodup : ∀ l : List ℕ, (uniqueKeep l).Nodup := by
  intro l
  induction l using uniqueKeep.induct with
  | case1 => rw [uniqueKeep]; exact List.nodup_nil
  | case2 x xs ih =>
    rw [show uniqueKeep (x :: xs) = x :: uniqueKeep (xs.filter (fun y => y != x)) from by
      rw [uniqueKeep]]
    refine List.nodup_cons.mpr ⟨?_, ih⟩
    intro hx
    have hx2 := (uniqueKeep_mem _ x).mp hx
    rw [List.mem_filter] at hx2
    simp at hx2

theorem uniqueKeep_toFinset (l : List ℕ) : (uniqueKeep l).toFinset = l.toFinset := by
  ext a
  simp only [List.mem_toFinset]
  exact uniqueKeep_mem l a

theorem uniqueKeep_length (l : List ℕ) : (uniqueKeep l).length = l.toFinset.card := by
  rw [← uniqueKeep_toFinset, List.toFinset_card_of_nodup (uniqueKeep_nodup l)]

theorem intRange_length (a b : ℤ) : (intRange a b).length = (b + 1 - a).toNat := by
  simp [intRange]

theorem intRange_nodup (a b : ℤ) : (intRange a b).Nodup := by
  refine List.Nodup.map ?_ (List.nodup_range _)
  intro i j h
  have h2 : a + (i : ℤ) = a + (j : ℤ) := h
  omega

theorem intRange_mem {a b y : ℤ} : y ∈ intRange a b ↔ a ≤ y ∧ y ≤ b := by
  constructor
  · intro h
    obtain ⟨i, hi, rfl⟩ := List.mem_map.mp h
    rw [List.mem_range] at hi
    omega
  · intro ⟨h1, h2⟩
    refine List.mem_map.mpr ⟨(y - a).toNat, ?_, ?_⟩
    · rw [List.mem_range]; omega
    · omega

theorem map_const_sum {α : Type} (L : List α) (c : ℕ) :
    (L.map (fun _ => c)).sum = L.length * c := by
  induction L with
  | nil => simp
  | cons x xs ih => simp [ih, Nat.succ_mul, Nat.add_comm]

/-! ### primary_supply.py -/

theorem scenFilter_subset (scen : Option (List MineProdRow)) (sy ey : ℤ) :
    ∀ b ∈ scenFilter scen sy ey, b ∈ scen.getD [] := by
  cases scen with
  | none => intro b hb; simp [scenFilter] at hb
  | some s => intro b hb; exact List.mem_of_mem_filter hb

/-- C8: for a non-empty mine master table, the mine-level output of
`build_primary_supply` has exactly (number of distinct mines) x (number of
years in range) rows, one per (mine_id, year) pair, and any pair absent from
both the historical production table and the scenario table carries
production exactly 0. -/
theorem dense_mine_grid (mines : List MineRow) (prod : List MineProdRow)
    (scen : Option (List MineProdRow)) (sy ey : ℤ) (hm : mines ≠ []) :
    (build_primary_supply mines prod scen sy ey).1.length =
        (mines.map (fun r => r.mine_id)).toFinset.card * (ey + 1 - sy).toNat ∧
      ((build_primary_supply mines prod scen sy ey).1.map
          (fun r => (r.mine_id, r.year))).Nodup ∧
      (∀ row ∈ (build_primary_supply mines prod scen sy ey).1,
        (∀ r ∈ prod, ¬(r.mine_id = row.mine_id ∧ r.year = row.year)) →
        (∀ r ∈ scen.getD [], ¬(r.mine_id = row.mine_id ∧ r.year = row.year)) →
        row.production_tu = 0) := by
  have hne : mines.isEmpty = false := by
    cases mines with
    | nil => exact absurd rfl hm
    | cons a l => rfl
  simp only [build_primary_supply, hne, Bool.false_eq_true, if_false]
  refine ⟨?_, ?_, ?_⟩
  · rw [List.length_flatMap]
    have h1 : List.map (List.length ∘ fun m => (intRange sy ey).map (fun y =>
        MineYearRow.mk m y
          ((((prod.filter (fun r => decide (sy ≤ r.year) && decide (r.year ≤ ey)) ++
            scenFilter scen sy ey).filter
              (fun r => r.mine_id == m && r.year == y)).map (fun r => r.production_tu)).sum)
          ((mines.find? (fun q => q.mine_id == m)).map (fun q => q.country))))
        (uniqueKeep (mines.map (fun r => r.mine_id))) =
        List.map (fun _ => (intRange sy ey).length)
          (uniqueKeep (mines.map (fun r => r.mine_id))) := by
      apply List.map_congr_left
      intro a _
      simp
    rw [h1, map_const_sum, uniqueKeep_length, intRange_length]
  · rw [List.map_flatMap]
    rw [List.nodup_flatMap]
    have hfst : ∀ (m : ℕ) (a : ℕ × ℤ) (f : ℤ → MineYearRow),
        (∀ y, (f y).mine_id = m ∧ (f y).year = y) →
        a ∈ ((intRange sy ey).map f).map (fun r : MineYearRow => (r.mine_id, r.year)) →
        a.1 = m := by
      intro m a f hf ha
      rw [List.map_map] at ha
      obtain ⟨y, _, rfl⟩ := List.mem_map.mp ha
      exact (hf y).1
    constructor
    · intro m _
      rw [List.map_map]
      refine List.Nodup.map ?_ (intRange_nodup sy ey)
      intro y1 y2 h
      have h3 : ((m, y1) : ℕ × ℤ) = (m, y2) := h
      exact ((Prod.mk.injEq _ _ _ _).mp h3).2
    · refine List.Pairwise.imp ?_
        (uniqueKeep_nodup (List.map (fun r : MineRow => r.mine_id) mines))
      intro m1 m2 hne12
      intro a ha1 ha2
      have e1 := hfst m1 a _ (fun y => ⟨rfl, rfl⟩) ha1
      have e2 := hfst m2 a _ (fun y => ⟨rfl, rfl⟩) ha2
      exact hne12 (e1.symm.trans e2)
  · intro row hrow hp hs
    obtain ⟨m, hmm, hrow2⟩ := List.mem_flatMap.mp hrow
    obtain ⟨y, hym, rfl⟩ := List.mem_map.mp hrow2
    have hfil : ((prod.filter (fun r => decide (sy ≤ r.year) && decide (r.year ≤ ey)) ++
        scenFilter scen sy ey).filter
        (fun r => r.mine_id == m && r.year == y)) = [] := by
      rw [List.filter_eq_nil_iff]
      intro b hb hbp
      simp only [Bool.and_eq_true, beq_iff_eq] at hbp
      rcases List.mem_append.mp hb with hb1 | hb2
      · exact hp b (List.mem_of_mem_filter hb1) ⟨hbp.1, hbp.2⟩
      · exact hs b (scenFilter_subset scen sy ey b hb2) ⟨hbp.1, hbp.2⟩
    simp only [hfil, List.map_nil, List.sum_nil]

theorem dense_mine_grid_witness :
    (build_primary_supply [MineRow.mk 1 "KZ", MineRow.mk 2 "CA"] [MineProdRow.mk 1 2021 5]
        none 2021 2022).1.length =
      ([MineRow.mk 1 "KZ", MineRow.mk 2 "CA"].map (fun r => r.mine_id)).toFinset.card *
        ((2022 + 1 - 2021 : ℤ)).toNat :=
  (dense_mine_grid [MineRow.mk 1 "KZ", MineRow.mk 2 "CA"] [MineProdRow.mk 1 2021 5]
    none 2021 2022 (by simp)).1

/-! ### Theorems about demand.py -/

theorem demandRowFor_reactor_id (r : ReactorProcRow) (st : ℤ) (gen : List GenRow)
    (fuel : List FuelParamsRow) (y : ℤ) :
    (demandRowFor r st gen fuel y).reactor_id = r.reactor_id := rfl

theorem demandRowFor_year (r : ReactorProcRow) (st : ℤ) (gen : List GenRow)
    (fuel : List FuelParamsRow) (y : ℤ) :
    (demandRowFor r st gen fuel y).year = y := rfl

theorem demandRowFor_first_core (r : ReactorProcRow) (st : ℤ) (gen : List GenRow)
    (fuel : List FuelParamsRow) (y : ℤ) :
    (demandRowFor r st gen fuel y).first_core_tu =
      match r.net_mwe with
      | some m => if y = st then
          lookupFuelParam fuel r.reactor_type (fun q => q.first_core_tu_per_gwe) 0 * (m / 1000)
        else 0
      | none => 0 := by
  cases h : r.net_mwe with
  | none => simp [demandRowFor, h]
  | some m => simp [demandRowFor, h]

theorem reactorBatch_id (gen : List GenRow) (fuel : List FuelParamsRow) (sy ey : ℤ)
    (q : ReactorProcRow) : ∀ row ∈ reactorBatch gen fuel sy ey q,
      row.reactor_id = q.reactor_id := by
  intro row hrow
  unfold reactorBatch at hrow
  cases h : q.commercial_operation_year with
  | none => rw [h] at hrow; simp at hrow
  | some st =>
    rw [h] at hrow
    obtain ⟨y, _, rfl⟩ := List.mem_map.mp hrow
    rfl

theorem fcPos_batch_le_one (gen : List GenRow) (fuel : List FuelParamsRow) (sy ey : ℤ)
    (rid : ℕ) (q : ReactorProcRow) :
    (reactorBatch gen fuel sy ey q).countP (fcPos rid) ≤ 1 := by
  unfold reactorBatch
  cases h : q.commercial_operation_year with
  | none => simp
  | some st =>
    rw [List.countP_map]
    have hmono : (reactorYears q st sy ey).countP (fcPos rid ∘ demandRowFor q st gen fuel) ≤
        (reactorYears q st sy ey).countP (fun y => y == st) := by
      apply List.countP_mono_left
      intro y _ hy
      simp only [Function.comp_apply, fcPos, Bool.and_eq_true, decide_eq_true_eq] at hy
      have hpos := hy.2
      rw [demandRowFor_first_core] at hpos
      by_contra hne
      simp only [beq_iff_eq] at hne
      cases hm : q.net_mwe with
      | none =>
        rw [hm] at hpos
        simp at hpos
      | some m =>
        rw [hm] at hpos
        simp [hne] at hpos
    refine le_trans hmono ?_
    have hcount : (reactorYears q st sy ey).countP (fun y => y == st) =
        (reactorYears q st sy ey).count st := rfl
    rw [hcount]
    have hnd : (reactorYears q st sy ey).Nodup := by
      unfold reactorYears
      exact intRange_nodup _ _
    exact List.nodup_iff_count_le_one.mp hnd st

theorem fcPos_flatMap_le_one (gen : List GenRow) (fuel : List FuelParamsRow) (sy ey : ℤ)
    (rid : ℕ) : ∀ l : List ReactorProcRow,
    l.Pairwise (fun a b => a.reactor_id ≠ b.reactor_id) →
    (l.flatMap (reactorBatch gen fuel sy ey)).countP (fcPos rid) ≤ 1 := by
  intro l
  induction l with
  | nil => intro _; simp
  | cons q l ih =>
    intro hpw
    obtain ⟨hhead, htail⟩ := List.pairwise_cons.mp hpw
    rw [List.flatMap_cons, List.countP_append]
    by_cases hq : q.reactor_id = rid
    · have hz : (l.flatMap (reactorBatch gen fuel sy ey)).countP (fcPos rid) = 0 := by
        rw [List.countP_eq_zero]
        intro d hd
        obtain ⟨b, hb, hdb⟩ := List.mem_flatMap.mp hd
        have hid := reactorBatch_id gen fuel sy ey b d hdb
        have hbne : d.reactor_id ≠ rid := by
          rw [hid, ← hq]
          exact fun hc => hhead b hb hc.symm
        simp [fcPos, hbne]
      rw [hz]
      have hb1 := fcPos_batch_le_one gen fuel sy ey rid q
      omega
    · have hz : (reactorBatch gen fuel sy ey q).countP (fcPos rid) = 0 := by
        rw [List.countP_eq_zero]
        intro d hd
        have hid := reactorBatch_id gen fuel sy ey q d hd
        simp [fcPos, hid, hq]
      rw [hz]
      simpa using ih htail

/-- C6: in a successful output of `compute_reactor_demand` (reactor ids being
distinct), a reactor whose commissioning year `st` lies in the requested range
has first-core tonnage `first-core factor x net GWe` in its row for year `st`,
exactly 0 in every other of its rows, and at most one of its rows carries a
strictly positive first-core charge. -/
theorem first_core_once (master : List ReactorMasterRow) (gen : List GenRow)
    (fuel : List FuelParamsRow) (life : Option (List LifeScenRow))
    (newb : Option (List NewbuildRow)) (sy ey : ℤ) (name : String) (rows : List DemandRow)
    (hok : compute_reactor_demand master gen fuel life newb sy ey name = Except.ok rows)
    (hdist : (processedReactors master life newb name).Pairwise
      (fun a b => a.reactor_id ≠ b.reactor_id))
    (r : ReactorProcRow) (hr : r ∈ processedReactors master life newb name)
    (st : ℤ) (hst : r.commercial_operation_year = some st)
    (hst1 : sy ≤ st) (hst2 : st ≤ ey) :
    (∀ row ∈ rows, row.reactor_id = r.reactor_id → row.year ≠ st →
      row.first_core_tu = 0) ∧
    (∀ row ∈ rows, row.reactor_id = r.reactor_id → row.year = st →
      row.first_core_tu = (match r.net_mwe with
        | some m =>
          lookupFuelParam fuel r.reactor_type (fun q => q.first_core_tu_per_gwe) 0 * (m / 1000)
        | none => 0)) ∧
    rows.countP (fcPos r.reactor_id) ≤ 1 := by
  have hrows : rows = (processedReactors master life newb name).flatMap
      (reactorBatch gen fuel sy ey) := by
    simp only [compute_reactor_demand] at hok
    by_cases hl : lifeMatching life name = []
    · rw [if_pos hl] at hok
      exact absurd hok (by simp)
    · rw [if_neg hl] at hok
      by_cases hc : (processedReactors master life newb name).all
          (fun r => r.commercial_operation_year.isSome)
      · rw [if_pos hc] at hok
        exact (Except.ok.inj hok).symm
      · rw [if_neg hc] at hok
        exact absurd hok (by simp)
  have hsym : Symmetric (fun a b : ReactorProcRow => a.reactor_id ≠ b.reactor_id) :=
    fun a b h hc => h hc.symm
  have hbelong : ∀ row ∈ rows, row.reactor_id = r.reactor_id →
      row ∈ reactorBatch gen fuel sy ey r := by
    intro row hrow hid
    rw [hrows] at hrow
    obtain ⟨b, hb, hdb⟩ := List.mem_flatMap.mp hrow
    by_cases hbr : b = r
    · rw [hbr] at hdb; exact hdb
    · exfalso
      have hbid := reactorBatch_id gen fuel sy ey b row hdb
      exact (List.Pairwise.forall hsym hdist hb hr hbr) (hbid.symm.trans hid)
  have hbatch : reactorBatch gen fuel sy ey r =
      (reactorYears r st sy ey).map (demandRowFor r st gen fuel) := by
    unfold reactorBatch
    rw [hst]
  refine ⟨?_, ?_, ?_⟩
  · intro row hrow hid hyne
    have hmem := hbelong row hrow hid
    rw [hbatch] at hmem
    obtain ⟨y, hy, rfl⟩ := List.mem_map.mp hmem
    rw [demandRowFor_first_core]
    cases hm : r.net_mwe with
    | none => simp
    | some m => simp [show y ≠ st from hyne]
  · intro row hrow hid hyeq
    have hmem := hbelong row hrow hid
    rw [hbatch] at hmem
    obtain ⟨y, hy, rfl⟩ := List.mem_map.mp hmem
    rw [demandRowFor_first_core]
    cases hm : r.net_mwe with
    | none => simp
    | some m => simp [show y = st from hyeq]
  · rw [hrows]
    exact fcPos_flatMap_le_one gen fuel sy ey r.reactor_id _ hdist

theorem first_core_once_witness :
    ((processedReactors [ReactorMasterRow.mk 1 "FR" "PWR" (some 1000) (some 2021) none]
        (some [LifeScenRow.mk "base" 1 (some 2022)]) none "base").flatMap
      (reactorBatch [] [] 2020 2022)).countP (fcPos 1) ≤ 1 :=
  (first_core_once [ReactorMasterRow.mk 1 "FR" "PWR" (some 1000) (some 2021) none]
    [] [] (some [LifeScenRow.mk "base" 1 (some 2022)]) none 2020 2022 "base"
    ((processedReactors [ReactorMasterRow.mk 1 "FR" "PWR" (some 1000) (some 2021) none]
        (some [LifeScenRow.mk "base" 1 (some 2022)]) none "base").flatMap
      (reactorBatch [] [] 2020 2022))
    rfl
    (by
      rw [show processedReactors [ReactorMasterRow.mk 1 "FR" "PWR" (some 1000) (some 2021) none]
          (some [LifeScenRow.mk "base" 1 (some 2022)]) none "base" =
          [ReactorProcRow.mk 1 "FR" "PWR" (some 1000) (some 2021) none (some 2022)] from rfl]
      simp)
    (ReactorProcRow.mk 1 "FR" "PWR" (some 1000) (some 2021) none (some 2022))
    (by
      rw [show processedReactors [ReactorMasterRow.mk 1 "FR" "PWR" (some 1000) (some 2021) none]
          (some [LifeScenRow.mk "base" 1 (some 2022)]) none "base" =
          [ReactorProcRow.mk 1 "FR" "PWR" (some 1000) (some 2021) none (some 2022)] from rfl]
      exact List.mem_singleton_self _)
    2021 rfl (by decide) (by decide)).2.2

theorem compute_reactor_demand_keyerror (master : List ReactorMasterRow) (gen : List GenRow)
    (fuel : List FuelParamsRow) (life : Option (List LifeScenRow))
    (newb : Option (List NewbuildRow)) (sy ey : ℤ) (name : String)
    (hl : lifeMatching life name = []) :
    compute_reactor_demand master gen fuel life newb sy ey name =
      Except.error "KeyError: shutdown_year_override" := by
  simp only [compute_reactor_demand]
  rw [if_pos hl]

theorem compute_reactor_demand_keyerror_none :
    compute_reactor_demand [ReactorMasterRow.mk 1 "FR" "PWR" (some 1000) (some 2021) none]
        [] [] none none 2020 2022 "base" =
      Except.error "KeyError: shutdown_year_override" :=
  compute_reactor_demand_keyerror _ _ _ none none 2020 2022 "base" rfl
